import Mathlib

/-!
Verification of the constrain-decomposition pass

Shallow embedding of `compiler/noirc_evaluator/src/ssa/ir/instruction/constrain.rs`
(`decompose_constrain` and its nested helper `calculate_binary_input`), together
with the narrow dataflow-graph / field-element / type surface the pass consumes.
The surrounding collaborators (`DataFlowGraph`, `FieldElement`, `Type`) are not
part of the visible sources, so they are modelled from the specification's
description of the interfaces (§3, §4.A, §4.B of the spec).
-/

/-- The BN254 scalar field prime used by the compiler's `FieldElement`. -/
def P : Nat := 21888242871839275222246405745257275088548364400416034343698204186575808495617

/-- Modelled from the spec: `FieldElement` is an element of a fixed prime field
(the concrete modulus is `P`).  Represented canonically as `Fin P`. -/
abbrev Fe := Fin P

/-- Embed a natural number into the field. -/
def Fe.mk (n : Nat) : Fe := ⟨n % P, Nat.mod_lt n (by decide)⟩

/-- The field constant zero. -/
def Fe.zero : Fe := Fe.mk 0

/-- The field constant one. -/
def Fe.one : Fe := Fe.mk 1

/-- Field addition (`FieldElement::add`). -/
def Fe.add (a b : Fe) : Fe := Fe.mk (a.1 + b.1)

/-- Field subtraction (`FieldElement::sub`). -/
def Fe.sub (a b : Fe) : Fe := Fe.mk (a.1 + (P - b.1))

/-- Field multiplication (`FieldElement::mul`). -/
def Fe.mul (a b : Fe) : Fe := Fe.mk (a.1 * b.1)

/-- Modelled from the spec: modular inverse.  The spec declares division by zero
"undefined and must not be invoked"; the model totalizes it by sending zero to
zero (matching the acvm implementation, whose `inverse` maps zero to zero). -/
def Fe.inv (a : Fe) : Fe :=
  if a.1 = 0 then Fe.zero else Fe.mk (((Nat.gcdA a.1 P) % (P : Int)).toNat)

/-- Modelled from the spec: field division is multiplication by the modular
inverse. -/
def Fe.div (a b : Fe) : Fe := Fe.mul a (Fe.inv b)

/-- Modelled from the spec: `FieldElement::xor(other, bit_width)` - bitwise XOR
of the two elements' low `bit_width` bits, re-embedded as a field element. -/
def Fe.xorBits (a b : Fe) (bits : Nat) : Fe :=
  Fe.mk (Nat.xor (a.1 % 2 ^ bits) (b.1 % 2 ^ bits))

/-- Source `FieldElement::is_one` (field equality with one). -/
def Fe.is_one (a : Fe) : Bool := a = Fe.one

/-- Source `FieldElement::is_zero` (field equality with zero). -/
def Fe.is_zero (a : Fe) : Bool := a = Fe.zero

/-- Source `FieldElement::from(bool)`. -/
def Fe.ofBool (b : Bool) : Fe := if b then Fe.one else Fe.zero

/-- Modelled from the spec: `Type` answers `is_bool`, `is_native_field`,
`is_unsigned`, `bit_size`; boolean is distinct from a 1-bit unsigned integer
for the purposes of this pass; all other types are treated opaquely. -/
inductive Typ where
  | bool
  | field
  | unsigned (bits : Nat)
  | other
deriving DecidableEq

/-- Source `Type::is_native_field`. -/
def Typ.is_native_field : Typ → Bool
  | .field => true
  | _ => false

/-- Source `Type::is_unsigned`. -/
def Typ.is_unsigned : Typ → Bool
  | .unsigned _ => true
  | _ => false

/-- Source `Type::bit_size` (used only by the XOR inversion; the field width is the
bit width of `P`). -/
def Typ.bit_size : Typ → Nat
  | .bool => 1
  | .unsigned bits => bits
  | .field => 254
  | .other => 0

/-- Source `ValueId` - opaque handle into the dataflow graph. -/
abbrev ValueId := Nat

/-- Source `InstructionId` - opaque handle to an instruction. -/
abbrev InstructionId := Nat

/-- Modelled from the spec: `ConstrainError` is an opaque diagnostic payload,
copied verbatim to each derived assertion. -/
abbrev ConstrainError := String

/-- Modelled from the spec: `Value` is a tagged variant - a numeric constant,
an instruction result, or an opaque case (function parameters, references). -/
inductive Value where
  | numericConstant (constant : Fe) (typ : Typ)
  | instruction (id : InstructionId) (typ : Typ)
  | param (typ : Typ)
deriving DecidableEq

/-- The binary-operator enumeration inspected by the pass. -/
inductive BinaryOp where
  | add | sub | mul | div | mod | eq | lt | and | or | xor
deriving DecidableEq

/-- The payload of `Instruction::Binary`. -/
structure Binary where
  lhs : ValueId
  rhs : ValueId
  operator : BinaryOp
deriving DecidableEq

/-- The instruction shapes the pass inspects (`Binary`, `Not`, `Constrain`);
all other instruction forms are collapsed into the opaque `other` case, which
falls through to the "no decomposition" path exactly as in the source. -/
inductive Instruction where
  | binary (b : Binary)
  | not (value : ValueId)
  | constrain (lhs rhs : ValueId) (msg : Option ConstrainError)
  | other
deriving DecidableEq

/-- Modelled from the spec: the dataflow graph container - a value table, an
instruction table, and the forwarding map collapsed by `resolve`. -/
structure DataFlowGraph where
  values : List Value
  instructions : List Instruction
  forwards : List (ValueId × ValueId)

/-- Modelled from the spec: `resolve(v)` collapses forwarding references to the
canonical representative (stored targets are already canonical). -/
def DataFlowGraph.resolve (dfg : DataFlowGraph) (v : ValueId) : ValueId :=
  match dfg.forwards.lookup v with
  | some w => w
  | none => v

/-- Value lookup (`&dfg[value_id]`); an id outside the table behaves as an
opaque value. -/
def DataFlowGraph.valueOf (dfg : DataFlowGraph) (v : ValueId) : Value :=
  dfg.values.getD v (Value.param Typ.other)

/-- Instruction lookup (`&dfg[instruction_id]`). -/
def DataFlowGraph.instOf (dfg : DataFlowGraph) (i : InstructionId) : Instruction :=
  dfg.instructions.getD i Instruction.other

/-- Source `DataFlowGraph::type_of_value`. -/
def DataFlowGraph.type_of_value (dfg : DataFlowGraph) (v : ValueId) : Typ :=
  match dfg.valueOf v with
  | .numericConstant _ typ => typ
  | .instruction _ typ => typ
  | .param typ => typ

/-- Source `DataFlowGraph::get_numeric_constant`. -/
def DataFlowGraph.get_numeric_constant (dfg : DataFlowGraph) (v : ValueId) : Option Fe :=
  match dfg.valueOf (dfg.resolve v) with
  | .numericConstant constant _ => some constant
  | _ => none

/-- Source `DataFlowGraph::is_constant`. -/
def DataFlowGraph.is_constant (dfg : DataFlowGraph) (v : ValueId) : Bool :=
  match dfg.valueOf (dfg.resolve v) with
  | .numericConstant _ _ => true
  | _ => false

/-- Modelled from the spec: `make_constant(value, typ)` interns a constant,
deduplicating on the `(value, type)` key; a fresh constant is appended to the
value table and its new id returned. -/
def DataFlowGraph.make_constant (dfg : DataFlowGraph) (constant : Fe) (typ : Typ) :
    ValueId × DataFlowGraph :=
  match dfg.values.findIdx? (· == Value.numericConstant constant typ) with
  | some i => (i, dfg)
  | none =>
    (dfg.values.length,
     { dfg with values := dfg.values ++ [Value.numericConstant constant typ] })

/-- The nested `calculate_binary_input` function of `decompose_constrain`
(constrain.rs lines 144-193): given a binary operator, the asserted result,
the known operand and its side, return the operand that would produce the
result, or `none` when the operator is not invertible in `typ`.  The `Eq` arm
is `unreachable!` in the source (a programmer error); it is modelled as `none`
and is never exercised by the decomposition driver's numeric bucket in any
claim. -/
def calculate_binary_input (operator : BinaryOp) (result : Fe) (known_input : Fe)
    (typ : Typ) (lhs_is_known : Bool) : Option Fe :=
  match operator with
  | .add => some (Fe.sub result known_input)
  | .sub =>
    if lhs_is_known then some (Fe.sub known_input result)
    else some (Fe.add result known_input)
  | .mul =>
    if typ.is_native_field then some (Fe.div result known_input)
    else
      -- TODO in source: simplify integer division
      if result = known_input then some Fe.one else none
  | .div =>
    if typ.is_native_field then
      if lhs_is_known then
        -- k / x == r implies x == k / r
        some (Fe.div known_input result)
      else
        -- x / k == r implies x == k * r
        some (Fe.mul known_input result)
    else none
  | .xor => some (Fe.xorBits result known_input typ.bit_size)
  | .eq => none
  -- Mod, Lt, And, Or lose information so cannot be reversed.
  | .mod => none
  | .lt => none
  | .and => none
  | .or => none

/-- The `(variable, value)` selection of the numeric bucket (constrain.rs lines
195-216): whichever binary operand is constant becomes the known input, the
lhs being preferred when both are.  The source's third arm is
`unreachable!("Checked that one of the addition inputs is constant")`; it is
modelled as `none` and proven unreachable under the bucket's guard. -/
def choose_variable_value (dfg : DataFlowGraph) (binary_lhs binary_rhs : ValueId)
    (operator : BinaryOp) (constant : Fe) (typ : Typ) :
    Option (ValueId × Option Fe) :=
  match dfg.get_numeric_constant binary_lhs, dfg.get_numeric_constant binary_rhs with
  | some known_input, _ =>
    some (binary_rhs, calculate_binary_input operator constant known_input typ true)
  | none, some known_input =>
    some (binary_lhs, calculate_binary_input operator constant known_input typ false)
  | none, none => none

/-- The leaf behaviour of `decompose_constrain`: resolve both sides, drop a
trivial `assert_eq(x, x)`, otherwise emit the unchanged constraint.  Used as
the fuel-exhaustion cutoff of the embedding. -/
def decompose_fallback (lhs0 rhs0 : ValueId) (msg : Option ConstrainError)
    (dfg : DataFlowGraph) : List Instruction × DataFlowGraph :=
  let lhs := dfg.resolve lhs0
  let rhs := dfg.resolve rhs0
  if lhs = rhs then ([], dfg)
  else ([Instruction.constrain lhs rhs msg], dfg)

/-- One unfolding of the body of `decompose_constrain` (constrain.rs lines
7-233), with the recursive self-calls abstracted as `recur`.  The Rust match
arms with pattern guards are rendered as the corresponding if-chains (a failed
guard falls through to the next arm, exactly as in Rust).  The graph is
threaded explicitly because `make_constant` interns fresh constants. -/
def decompose_body
    (recur : ValueId → ValueId → Option ConstrainError → DataFlowGraph →
      List Instruction × DataFlowGraph)
    (lhs0 rhs0 : ValueId) (msg : Option ConstrainError) (dfg : DataFlowGraph) :
    List Instruction × DataFlowGraph :=
  let lhs := dfg.resolve lhs0
  let rhs := dfg.resolve rhs0
  if lhs = rhs then
    -- Remove trivial case `assert_eq(x, x)`
    ([], dfg)
  else
    match dfg.valueOf lhs, dfg.valueOf rhs with
    | Value.numericConstant constant typ, Value.instruction instruction _
    | Value.instruction instruction _, Value.numericConstant constant typ =>
      if typ = Typ.bool then
        match dfg.instOf instruction with
        | Instruction.binary ⟨a, b, op⟩ =>
          if op = BinaryOp.eq ∧ Fe.is_one constant = true then
            -- Replace a two step equality assertion `v2 = eq v0 v1; constrain v2 == 1`
            -- with a direct assertion of equality between the two values.
            ([Instruction.constrain a b msg], dfg)
          else if op = BinaryOp.mul ∧ Fe.is_one constant = true ∧
              dfg.type_of_value a = Typ.bool then
            -- For a boolean multiplication asserted to 1, both factors are 1.
            let one := dfg.make_constant Fe.one Typ.bool
            let r1 := recur a one.1 msg one.2
            let r2 := recur b one.1 msg r1.2
            (r1.1 ++ r2.1, r2.2)
          else if op = BinaryOp.or ∧ Fe.is_zero constant = true then
            -- For an OR asserted to 0, both operands are 0; the zero constant
            -- carries the type of the lhs operand.
            let zero := dfg.make_constant Fe.zero (dfg.type_of_value a)
            let r1 := recur a zero.1 msg zero.2
            let r2 := recur b zero.1 msg r1.2
            (r1.1 ++ r2.1, r2.2)
          else ([Instruction.constrain lhs rhs msg], dfg)
        | Instruction.not value =>
          -- An assertion on a NOT becomes the flipped assertion on its input.
          let reversed := dfg.make_constant (Fe.ofBool (! Fe.is_one constant)) Typ.bool
          recur value reversed.1 msg reversed.2
        | _ => ([Instruction.constrain lhs rhs msg], dfg)
      else if typ.is_native_field || typ.is_unsigned then
        match dfg.instOf instruction with
        | Instruction.binary ⟨binary_lhs, binary_rhs, operator⟩ =>
          if dfg.is_constant binary_lhs || dfg.is_constant binary_rhs then
            match choose_variable_value dfg binary_lhs binary_rhs operator constant typ with
            | some (var, some value) =>
              -- `var` is named `variable` in the source (a Lean keyword).
              let vc := dfg.make_constant value typ
              ([Instruction.constrain var vc.1 msg], vc.2)
            | some (_, none) => ([Instruction.constrain lhs rhs msg], dfg)
            | none =>
              -- Rust: unreachable!("Checked that one of the addition inputs is constant")
              ([Instruction.constrain lhs rhs msg], dfg)
          else ([Instruction.constrain lhs rhs msg], dfg)
        | _ => ([Instruction.constrain lhs rhs msg], dfg)
      else ([Instruction.constrain lhs rhs msg], dfg)
    | _, _ => ([Instruction.constrain lhs rhs msg], dfg)

/-- Source `decompose_constrain(lhs, rhs, msg, dfg)`.  The Rust function recurses on
the operands of the matched instruction and terminates on well-formed (acyclic)
SSA graphs; the embedding makes the recursion depth explicit with a `fuel`
parameter, falling back to the source's leaf behaviour when fuel runs out. -/
def decompose_constrain : Nat → ValueId → ValueId → Option ConstrainError →
    DataFlowGraph → List Instruction × DataFlowGraph
  | 0, lhs0, rhs0, msg, dfg => decompose_fallback lhs0 rhs0 msg dfg
  | fuel + 1, lhs0, rhs0, msg, dfg =>
    decompose_body (decompose_constrain fuel) lhs0 rhs0 msg dfg

/-- Graph for the trivial-constraint scenario: ids 5 and 2 resolve to the same
canonical value. -/
def dfgTriv : DataFlowGraph :=
  { values := [Value.param Typ.other, Value.param Typ.other, Value.param Typ.other],
    instructions := [],
    forwards := [(5, 2)] }

/-- Graph with `v1 = eq v0, v0` and the boolean constant 1 (id 2): an equality
instruction whose two operands coincide. -/
def dfgEqBad : DataFlowGraph :=
  { values := [Value.param Typ.other,
               Value.instruction 0 Typ.bool,
               Value.numericConstant (Fe.mk 1) Typ.bool],
    instructions := [Instruction.binary ⟨0, 0, BinaryOp.eq⟩],
    forwards := [] }

/-- Spec scenario 1: `v2 = eq v0, v1` (id 2) and the boolean constant 1 (id 3). -/
def dfgEq : DataFlowGraph :=
  { values := [Value.param Typ.other,
               Value.param Typ.other,
               Value.instruction 0 Typ.bool,
               Value.numericConstant (Fe.mk 1) Typ.bool],
    instructions := [Instruction.binary ⟨0, 1, BinaryOp.eq⟩],
    forwards := [] }

/-- Spec scenario 2: `v0, v1 : bool`, `v2 = mul v0, v1` (id 2), boolean
constant 1 (id 3). -/
def dfgMul : DataFlowGraph :=
  { values := [Value.param Typ.bool,
               Value.param Typ.bool,
               Value.instruction 0 Typ.bool,
               Value.numericConstant (Fe.mk 1) Typ.bool],
    instructions := [Instruction.binary ⟨0, 1, BinaryOp.mul⟩],
    forwards := [] }

/-- Spec scenario 3: `v0, v1 : u32`, `v2 = or v0, v1` (id 2), boolean
constant 0 (id 3). -/
def dfgOr : DataFlowGraph :=
  { values := [Value.param (Typ.unsigned 32),
               Value.param (Typ.unsigned 32),
               Value.instruction 0 Typ.bool,
               Value.numericConstant (Fe.mk 0) Typ.bool],
    instructions := [Instruction.binary ⟨0, 1, BinaryOp.or⟩],
    forwards := [] }

/-- Spec scenario 4: `v1 = not v0` (id 1) and the boolean constant 1 (id 2). -/
def dfgNot : DataFlowGraph :=
  { values := [Value.param Typ.bool,
               Value.instruction 0 Typ.bool,
               Value.numericConstant (Fe.mk 1) Typ.bool],
    instructions := [Instruction.not 0],
    forwards := [] }

/-- Spec scenario 6: `v2 = mod v0, u32 7` (id 2) and the constant `u32 3`
(id 3). -/
def dfgMod : DataFlowGraph :=
  { values := [Value.param (Typ.unsigned 32),
               Value.numericConstant (Fe.mk 7) (Typ.unsigned 32),
               Value.instruction 0 (Typ.unsigned 32),
               Value.numericConstant (Fe.mk 3) (Typ.unsigned 32)],
    instructions := [Instruction.binary ⟨0, 1, BinaryOp.mod⟩],
    forwards := [] }

/-- Non-field multiplication whose asserted result equals its known operand:
`v2 = mul v0, u32 5` (id 2) and the constant `u32 5` (id 3). -/
def dfgMulU : DataFlowGraph :=
  { values := [Value.param (Typ.unsigned 32),
               Value.numericConstant (Fe.mk 5) (Typ.unsigned 32),
               Value.instruction 0 (Typ.unsigned 32),
               Value.numericConstant (Fe.mk 5) (Typ.unsigned 32)],
    instructions := [Instruction.binary ⟨0, 1, BinaryOp.mul⟩],
    forwards := [] }

/-- Both binary operands constant: `v2 = add (u32 2), (u32 3)` (id 2) and the
asserted constant `u32 9` (id 3). -/
def dfgBoth : DataFlowGraph :=
  { values := [Value.numericConstant (Fe.mk 2) (Typ.unsigned 32),
               Value.numericConstant (Fe.mk 3) (Typ.unsigned 32),
               Value.instruction 0 (Typ.unsigned 32),
               Value.numericConstant (Fe.mk 9) (Typ.unsigned 32)],
    instructions := [Instruction.binary ⟨0, 1, BinaryOp.add⟩],
    forwards := [] }

/-- The shape dispatched on by both buckets of `decompose_constrain`: after
resolution, one side is a numeric constant and the other an instruction
result, in either orientation (the Rust or-pattern). -/
def const_instr_pair (dfg : DataFlowGraph) (lhs rhs : ValueId) (c : Fe) (t : Typ)
    (i : InstructionId) : Prop :=
  (∃ ti, dfg.valueOf (dfg.resolve lhs) = Value.instruction i ti ∧
         dfg.valueOf (dfg.resolve rhs) = Value.numericConstant c t)
  ∨ (∃ ti, dfg.valueOf (dfg.resolve lhs) = Value.numericConstant c t ∧
           dfg.valueOf (dfg.resolve rhs) = Value.instruction i ti)

theorem decompose_constrain_zero (lhs0 rhs0 : ValueId) (msg : Option ConstrainError)
    (dfg : DataFlowGraph) :
    decompose_constrain 0 lhs0 rhs0 msg dfg = decompose_fallback lhs0 rhs0 msg dfg := rfl

theorem decompose_constrain_succ (fuel : Nat) (lhs0 rhs0 : ValueId)
    (msg : Option ConstrainError) (dfg : DataFlowGraph) :
    decompose_constrain (fuel + 1) lhs0 rhs0 msg dfg =
      decompose_body (decompose_constrain fuel) lhs0 rhs0 msg dfg := rfl

/-- C1: if after resolution `lhs` and `rhs` are the same `ValueId`, then
`decompose_constrain(lhs, rhs, msg, dfg)` returns the empty list, for every
message payload. -/
theorem decompose_constrain_self_empty (fuel : Nat) (lhs0 rhs0 : ValueId)
    (msg : Option ConstrainError) (dfg : DataFlowGraph)
    (h : dfg.resolve lhs0 = dfg.resolve rhs0) :
    (decompose_constrain fuel lhs0 rhs0 msg dfg).1 = [] := by
  cases fuel with
  | zero => rw [decompose_constrain_zero]; simp [decompose_fallback, h]
  | succ n => rw [decompose_constrain_succ]; simp [decompose_body, h]

theorem decompose_constrain_self_empty_witness :
    (decompose_constrain 1 5 2 none dfgTriv).1 = [] :=
  decompose_constrain_self_empty 1 5 2 none dfgTriv (by decide)

/-- C2 counterexample: for the graph with `v1 = eq v0, v0` and the constraint
`v1 = 1_bool`, the operands of the equality are resolved and equal, yet the
output is `[Constrain(v0, v0, msg)]`, not the empty list the claim requires. -/
theorem decompose_eq_fold_not_recursive :
    (decompose_constrain 4 1 2 none dfgEqBad).1 ≠ [] := by decide

/-- C2 (amended): for a constraint between a boolean constant 1 and the output
of `Binary{a, b, Eq}`, `decompose_constrain` directly emits the single
constraint `[Constrain(a, b, msg)]` without recursing (so equal operands yield
`[Constrain(a, a, msg)]`, and distinct `v0, v1` yield
`[Constrain(v0, v1, msg)]`). -/
theorem decompose_eq_fold (fuel : Nat) (lhs0 rhs0 : ValueId) (msg : Option ConstrainError)
    (dfg : DataFlowGraph) (i : InstructionId) (c : Fe) (a b : ValueId)
    (hne : dfg.resolve lhs0 ≠ dfg.resolve rhs0)
    (hpair : const_instr_pair dfg lhs0 rhs0 c Typ.bool i)
    (hinst : dfg.instOf i = Instruction.binary ⟨a, b, BinaryOp.eq⟩)
    (hc : Fe.is_one c = true) :
    decompose_constrain (fuel + 1) lhs0 rhs0 msg dfg =
      ([Instruction.constrain a b msg], dfg) := by
  rw [decompose_constrain_succ]
  rcases hpair with ⟨ti, hl, hr⟩ | ⟨ti, hl, hr⟩ <;>
    simp [decompose_body, hne, hl, hr, hinst, hc]

theorem decompose_eq_fold_witness :
    decompose_constrain 1 2 3 none dfgEq = ([Instruction.constrain 0 1 none], dfgEq) :=
  decompose_eq_fold 0 2 3 none dfgEq 0 (Fe.mk 1) 0 1 (by decide)
    (Or.inl ⟨Typ.bool, rfl, rfl⟩) rfl (by decide)

/-- C3: for a constraint between a boolean constant 1 and the output of
`Binary{a, b, Mul}` with `type_of(a) = bool`, `decompose_constrain` returns
the concatenation of `decompose(a, 1_bool, msg)` and `decompose(b, 1_bool,
msg)`, the boolean one-constant being interned first and the graph threaded
through both recursive calls. -/
theorem decompose_mul_bool (fuel : Nat) (lhs0 rhs0 : ValueId) (msg : Option ConstrainError)
    (dfg : DataFlowGraph) (i : InstructionId) (c : Fe) (a b : ValueId)
    (hne : dfg.resolve lhs0 ≠ dfg.resolve rhs0)
    (hpair : const_instr_pair dfg lhs0 rhs0 c Typ.bool i)
    (hinst : dfg.instOf i = Instruction.binary ⟨a, b, BinaryOp.mul⟩)
    (hc : Fe.is_one c = true)
    (hta : dfg.type_of_value a = Typ.bool) :
    decompose_constrain (fuel + 1) lhs0 rhs0 msg dfg =
      ((decompose_constrain fuel a (dfg.make_constant Fe.one Typ.bool).1 msg
          (dfg.make_constant Fe.one Typ.bool).2).1 ++
       (decompose_constrain fuel b (dfg.make_constant Fe.one Typ.bool).1 msg
          (decompose_constrain fuel a (dfg.make_constant Fe.one Typ.bool).1 msg
            (dfg.make_constant Fe.one Typ.bool).2).2).1,
       (decompose_constrain fuel b (dfg.make_constant Fe.one Typ.bool).1 msg
          (decompose_constrain fuel a (dfg.make_constant Fe.one Typ.bool).1 msg
            (dfg.make_constant Fe.one Typ.bool).2).2).2) := by
  rw [decompose_constrain_succ]
  rcases hpair with ⟨ti, hl, hr⟩ | ⟨ti, hl, hr⟩ <;>
    simp [decompose_body, hne, hl, hr, hinst, hc, hta]

theorem decompose_mul_bool_witness :
    (decompose_constrain 2 2 3 (some "m") dfgMul).1 =
      [Instruction.constrain 0 3 (some "m"), Instruction.constrain 1 3 (some "m")] := by
  rw [decompose_mul_bool 1 2 3 (some "m") dfgMul 0 (Fe.mk 1) 0 1 (by decide)
    (Or.inl ⟨Typ.bool, rfl, rfl⟩) rfl (by decide) rfl]
  decide

/-- C4: for a constraint between a boolean constant 0 and the output of
`Binary{a, b, Or}`, `decompose_constrain` returns `decompose(a, zero, msg) ++
decompose(b, zero, msg)`, the zero constant being interned with the type of
the Or instruction's lhs operand, not the constant's bool type. -/
theorem decompose_or_zero (fuel : Nat) (lhs0 rhs0 : ValueId) (msg : Option ConstrainError)
    (dfg : DataFlowGraph) (i : InstructionId) (c : Fe) (a b : ValueId)
    (hne : dfg.resolve lhs0 ≠ dfg.resolve rhs0)
    (hpair : const_instr_pair dfg lhs0 rhs0 c Typ.bool i)
    (hinst : dfg.instOf i = Instruction.binary ⟨a, b, BinaryOp.or⟩)
    (hc : Fe.is_zero c = true) :
    decompose_constrain (fuel + 1) lhs0 rhs0 msg dfg =
      ((decompose_constrain fuel a (dfg.make_constant Fe.zero (dfg.type_of_value a)).1 msg
          (dfg.make_constant Fe.zero (dfg.type_of_value a)).2).1 ++
       (decompose_constrain fuel b (dfg.make_constant Fe.zero (dfg.type_of_value a)).1 msg
          (decompose_constrain fuel a (dfg.make_constant Fe.zero (dfg.type_of_value a)).1 msg
            (dfg.make_constant Fe.zero (dfg.type_of_value a)).2).2).1,
       (decompose_constrain fuel b (dfg.make_constant Fe.zero (dfg.type_of_value a)).1 msg
          (decompose_constrain fuel a (dfg.make_constant Fe.zero (dfg.type_of_value a)).1 msg
            (dfg.make_constant Fe.zero (dfg.type_of_value a)).2).2).2) := by
  have hcz : Fe.is_one c = false := by
    unfold Fe.is_one
    unfold Fe.is_zero at hc
    simp only [decide_eq_true_eq] at hc
    subst hc
    decide
  rw [decompose_constrain_succ]
  rcases hpair with ⟨ti, hl, hr⟩ | ⟨ti, hl, hr⟩ <;>
    simp [decompose_body, hne, hl, hr, hinst, hc, hcz]

theorem decompose_or_zero_witness :
    (decompose_constrain 2 2 3 none dfgOr).1 =
        [Instruction.constrain 0 4 none, Instruction.constrain 1 4 none] ∧
      ((decompose_constrain 2 2 3 none dfgOr).2).valueOf 4 =
        Value.numericConstant (Fe.mk 0) (Typ.unsigned 32) := by
  rw [decompose_or_zero 1 2 3 none dfgOr 0 (Fe.mk 0) 0 1 (by decide)
    (Or.inl ⟨Typ.bool, rfl, rfl⟩) rfl (by decide)]
  exact ⟨by decide, by decide⟩

/-- C5: for a constraint between a boolean constant `k` and the output of
`Not{v}`, `decompose_constrain` returns `decompose(v, flipped, msg)` where
`flipped = 1 - k` is interned as a bool constant (for the boolean values
`k = 0` and `k = 1`; in particular `k = 1` recurses on `v = 0` and `k = 0`
recurses on `v = 1`). -/
theorem decompose_not_flip (fuel : Nat) (lhs0 rhs0 : ValueId) (msg : Option ConstrainError)
    (dfg : DataFlowGraph) (i : InstructionId) (c : Fe) (v : ValueId)
    (hne : dfg.resolve lhs0 ≠ dfg.resolve rhs0)
    (hpair : const_instr_pair dfg lhs0 rhs0 c Typ.bool i)
    (hinst : dfg.instOf i = Instruction.not v)
    (hc : c = Fe.zero ∨ c = Fe.one) :
    decompose_constrain (fuel + 1) lhs0 rhs0 msg dfg =
      decompose_constrain fuel v (dfg.make_constant (Fe.sub Fe.one c) Typ.bool).1 msg
        (dfg.make_constant (Fe.sub Fe.one c) Typ.bool).2 := by
  have hof : Fe.ofBool (! Fe.is_one c) = Fe.sub Fe.one c := by
    rcases hc with h | h <;> subst h <;> decide
  rw [decompose_constrain_succ]
  rcases hpair with ⟨ti, hl, hr⟩ | ⟨ti, hl, hr⟩ <;>
    simp [decompose_body, hne, hl, hr, hinst, hof]

theorem decompose_not_flip_witness :
    (decompose_constrain 2 1 2 none dfgNot).1 = [Instruction.constrain 0 3 none] ∧
      ((decompose_constrain 2 1 2 none dfgNot).2).valueOf 3 =
        Value.numericConstant (Fe.mk 0) Typ.bool := by
  rw [decompose_not_flip 1 1 2 none dfgNot 0 (Fe.mk 1) 0 (by decide)
    (Or.inl ⟨Typ.bool, rfl, rfl⟩) rfl (Or.inr rfl)]
  exact ⟨by decide, by decide⟩

theorem is_constant_get (dfg : DataFlowGraph) (v : ValueId) :
    dfg.is_constant v = (dfg.get_numeric_constant v).isSome := by
  unfold DataFlowGraph.is_constant DataFlowGraph.get_numeric_constant
  cases hval : dfg.valueOf (dfg.resolve v) <;> rfl

/-- C6: the inverse solver returns `none` for `Mod`, `Lt`, `And`, `Or` in every
type, and whenever the solver returns `none` the driver emits the single
unchanged `Constrain(lhs, rhs, msg)` (a normal control signal, not an
error). -/
theorem solver_none_and_unchanged :
    (∀ (op : BinaryOp) (result known : Fe) (t : Typ) (b : Bool),
        op = BinaryOp.mod ∨ op = BinaryOp.lt ∨ op = BinaryOp.and ∨ op = BinaryOp.or →
        calculate_binary_input op result known t b = none) ∧
    (∀ (fuel : Nat) (lhs0 rhs0 : ValueId) (msg : Option ConstrainError)
        (dfg : DataFlowGraph) (i : InstructionId) (c : Fe) (t : Typ)
        (bl br : ValueId) (op : BinaryOp) (v : ValueId),
        dfg.resolve lhs0 ≠ dfg.resolve rhs0 →
        const_instr_pair dfg lhs0 rhs0 c t i →
        (t.is_native_field || t.is_unsigned) = true →
        dfg.instOf i = Instruction.binary ⟨bl, br, op⟩ →
        (dfg.is_constant bl || dfg.is_constant br) = true →
        choose_variable_value dfg bl br op c t = some (v, none) →
        decompose_constrain (fuel + 1) lhs0 rhs0 msg dfg =
          ([Instruction.constrain (dfg.resolve lhs0) (dfg.resolve rhs0) msg], dfg)) := by
  constructor
  · intro op result known t b h
    rcases h with h | h | h | h <;> subst h <;> rfl
  · intro fuel lhs0 rhs0 msg dfg i c t bl br op v hne hpair ht hinst hguard hchoose
    have htb : ¬ t = Typ.bool := by
      intro h
      subst h
      simp [Typ.is_native_field, Typ.is_unsigned] at ht
    rw [decompose_constrain_succ]
    rcases hpair with ⟨ti, hl, hr⟩ | ⟨ti, hl, hr⟩ <;>
      simp [decompose_body, hne, hl, hr, htb, ht, hinst, hguard, hchoose]

theorem solver_none_and_unchanged_witness :
    calculate_binary_input BinaryOp.mod (Fe.mk 3) (Fe.mk 7) (Typ.unsigned 32) false = none ∧
      (decompose_constrain 1 2 3 none dfgMod).1 = [Instruction.constrain 2 3 none] := by
  constructor
  · exact solver_none_and_unchanged.1 BinaryOp.mod (Fe.mk 3) (Fe.mk 7) (Typ.unsigned 32)
      false (Or.inl rfl)
  · rw [solver_none_and_unchanged.2 0 2 3 none dfgMod 0 (Fe.mk 3) (Typ.unsigned 32) 0 1
      BinaryOp.mod 0 (by decide) (Or.inl ⟨Typ.unsigned 32, rfl, rfl⟩) rfl rfl
      (by decide) (by decide)]
    decide

/-- C7: the inverse solver for `Mul` returns `Some(result / known)` over the
native field and, over an unsigned type, `Some(1)` exactly when
`result = known` (else `none`); consequently a non-field `Mul` whose asserted
result equals its known operand decomposes to the single constraint
`variable = 1` (the driver emits `Constrain(variable, interned, msg)` whenever
the solver succeeds). -/
theorem calculate_mul_inverse :
    (∀ (result known : Fe) (t : Typ) (b : Bool), t.is_native_field = true →
        calculate_binary_input BinaryOp.mul result known t b =
          some (Fe.div result known)) ∧
    (∀ (result known : Fe) (t : Typ) (b : Bool), t.is_unsigned = true →
        calculate_binary_input BinaryOp.mul result known t b =
          if result = known then some Fe.one else none) ∧
    (∀ (fuel : Nat) (lhs0 rhs0 : ValueId) (msg : Option ConstrainError)
        (dfg : DataFlowGraph) (i : InstructionId) (c : Fe) (t : Typ)
        (bl br : ValueId) (op : BinaryOp) (v : ValueId) (x : Fe),
        dfg.resolve lhs0 ≠ dfg.resolve rhs0 →
        const_instr_pair dfg lhs0 rhs0 c t i →
        (t.is_native_field || t.is_unsigned) = true →
        dfg.instOf i = Instruction.binary ⟨bl, br, op⟩ →
        (dfg.is_constant bl || dfg.is_constant br) = true →
        choose_variable_value dfg bl br op c t = some (v, some x) →
        decompose_constrain (fuel + 1) lhs0 rhs0 msg dfg =
          ([Instruction.constrain v (dfg.make_constant x t).1 msg],
           (dfg.make_constant x t).2)) := by
  refine ⟨?_, ?_, ?_⟩
  · intro result known t b h
    cases t with
    | field => rfl
    | bool => exact absurd h (by simp [Typ.is_native_field])
    | unsigned bits => exact absurd h (by simp [Typ.is_native_field])
    | other => exact absurd h (by simp [Typ.is_native_field])
  · intro result known t b h
    cases t with
    | unsigned bits => rfl
    | bool => exact absurd h (by simp [Typ.is_unsigned])
    | field => exact absurd h (by simp [Typ.is_unsigned])
    | other => exact absurd h (by simp [Typ.is_unsigned])
  · intro fuel lhs0 rhs0 msg dfg i c t bl br op v x hne hpair ht hinst hguard hchoose
    have htb : ¬ t = Typ.bool := by
      intro h
      subst h
      simp [Typ.is_native_field, Typ.is_unsigned] at ht
    rw [decompose_constrain_succ]
    rcases hpair with ⟨ti, hl, hr⟩ | ⟨ti, hl, hr⟩ <;>
      simp [decompose_body, hne, hl, hr, htb, ht, hinst, hguard, hchoose]

theorem calculate_mul_inverse_witness :
    calculate_binary_input BinaryOp.mul (Fe.mk 6) (Fe.mk 3) Typ.field true =
        some (Fe.div (Fe.mk 6) (Fe.mk 3)) ∧
      calculate_binary_input BinaryOp.mul (Fe.mk 5) (Fe.mk 5) (Typ.unsigned 32) false =
        some Fe.one ∧
      (decompose_constrain 1 2 3 none dfgMulU).1 = [Instruction.constrain 0 4 none] ∧
      ((decompose_constrain 1 2 3 none dfgMulU).2).valueOf 4 =
        Value.numericConstant Fe.one (Typ.unsigned 32) := by
  refine ⟨calculate_mul_inverse.1 (Fe.mk 6) (Fe.mk 3) Typ.field true rfl, ?_, ?_, ?_⟩
  · rw [calculate_mul_inverse.2.1 (Fe.mk 5) (Fe.mk 5) (Typ.unsigned 32) false rfl]
    decide
  · rw [calculate_mul_inverse.2.2 0 2 3 none dfgMulU 0 (Fe.mk 5) (Typ.unsigned 32) 0 1
      BinaryOp.mul 0 Fe.one (by decide) (Or.inl ⟨Typ.unsigned 32, rfl, rfl⟩) rfl rfl
      (by decide) (by decide)]
    decide
  · rw [calculate_mul_inverse.2.2 0 2 3 none dfgMulU 0 (Fe.mk 5) (Typ.unsigned 32) 0 1
      BinaryOp.mul 0 Fe.one (by decide) (Or.inl ⟨Typ.unsigned 32, rfl, rfl⟩) rfl rfl
      (by decide) (by decide)]
    decide

/-- C8 counterexample: the inverse solver does not check for a zero divisor -
inverting `Mul` over the field with `known = 0` returns `Some`, not the `none`
the claim requires. -/
theorem calculate_no_zero_guard :
    calculate_binary_input BinaryOp.mul (Fe.mk 3) (Fe.mk 0) Typ.field true ≠ none := by
  decide

/-- C8 (amended): the solver performs no division-by-zero guard: over the
field, `Mul` inversion returns `Some(result / known)` unconditionally even for
`known = 0`, and `Div` inversion with a known lhs divides by the asserted
result even when it is zero; in the model (as in the acvm field library)
division by zero yields zero rather than an error, so the guard is the
caller's obligation. -/
theorem calculate_divides_unconditionally (result known : Fe) (b : Bool) :
    calculate_binary_input BinaryOp.mul result (Fe.mk 0) Typ.field b =
        some (Fe.div result (Fe.mk 0)) ∧
      calculate_binary_input BinaryOp.div (Fe.mk 0) known Typ.field true =
        some (Fe.div known (Fe.mk 0)) ∧
      Fe.div result (Fe.mk 0) = Fe.mk 0 := by
  refine ⟨rfl, rfl, ?_⟩
  have h1 : Fe.inv (Fe.mk 0) = Fe.zero := by decide
  unfold Fe.div
  rw [h1]
  simp [Fe.mul, Fe.mk, Fe.zero]

/-- C9: every `Constrain` instruction in the list returned by
`decompose_constrain` carries the original `msg` payload - it is duplicated
across fan-out with unchanged content, never dropped or altered. -/
theorem decompose_msg_preserved (fuel : Nat) (lhs0 rhs0 : ValueId)
    (msg : Option ConstrainError) (dfg : DataFlowGraph) :
    ∀ ins ∈ (decompose_constrain fuel lhs0 rhs0 msg dfg).1,
      ∃ a b, ins = Instruction.constrain a b msg := by
  induction fuel generalizing lhs0 rhs0 dfg with
  | zero =>
    intro ins hins
    rw [decompose_constrain_zero] at hins
    simp only [decompose_fallback] at hins
    split at hins
    · simp at hins
    · simp only [List.mem_singleton] at hins
      exact ⟨_, _, hins⟩
  | succ n ih =>
    intro ins hins
    rw [decompose_constrain_succ] at hins
    simp only [decompose_body] at hins
    split at hins
    · simp at hins
    · split at hins
      all_goals try split at hins
      all_goals try split at hins
      all_goals try split at hins
      all_goals try split at hins
      all_goals try split at hins
      all_goals
        first
          | exact ih _ _ _ _ hins
          | (simp at hins
             first
               | exact ⟨_, _, hins⟩
               | (rcases hins with h | h
                  · exact ih _ _ _ _ h
                  · exact ih _ _ _ _ h))

theorem decompose_msg_preserved_witness :
    ∃ a b, Instruction.constrain 0 3 (some "m") = Instruction.constrain a b (some "m") :=
  decompose_msg_preserved 2 2 3 (some "m") dfgMul
    (Instruction.constrain 0 3 (some "m")) (by decide)

/-- C10: in the numeric bucket, when both operands of the matched binary are
constants the selection logic deterministically takes the binary's lhs operand
as the known input and picks the binary's rhs operand (itself a constant) as
the variable to constrain against the solved value; and under the bucket's
guard that at least one operand is constant, the `unreachable!` no-constant
arm is never executed (the selection always yields `some`). -/
theorem choose_both_constant :
    (∀ (dfg : DataFlowGraph) (bl br : ValueId) (op : BinaryOp) (c : Fe) (t : Typ) (k : Fe),
        dfg.get_numeric_constant bl = some k →
        dfg.is_constant br = true →
        choose_variable_value dfg bl br op c t =
          some (br, calculate_binary_input op c k t true)) ∧
    (∀ (dfg : DataFlowGraph) (bl br : ValueId) (op : BinaryOp) (c : Fe) (t : Typ),
        (dfg.is_constant bl || dfg.is_constant br) = true →
        (choose_variable_value dfg bl br op c t).isSome = true) := by
  constructor
  · intro dfg bl br op c t k hbl hbr
    unfold choose_variable_value
    rw [hbl]
  · intro dfg bl br op c t h
    rw [is_constant_get, is_constant_get] at h
    unfold choose_variable_value
    cases hbl : dfg.get_numeric_constant bl with
    | some k =>
      cases hbr : dfg.get_numeric_constant br with
      | some j => simp
      | none => simp
    | none =>
      cases hbr : dfg.get_numeric_constant br with
      | some j => simp
      | none =>
        rw [hbl, hbr] at h
        simp at h

theorem choose_both_constant_witness :
    choose_variable_value dfgBoth 0 1 BinaryOp.add (Fe.mk 9) (Typ.unsigned 32) =
        some (1, calculate_binary_input BinaryOp.add (Fe.mk 9) (Fe.mk 2) (Typ.unsigned 32) true) ∧
      (choose_variable_value dfgBoth 0 1 BinaryOp.add (Fe.mk 9) (Typ.unsigned 32)).isSome = true :=
  ⟨choose_both_constant.1 dfgBoth 0 1 BinaryOp.add (Fe.mk 9) (Typ.unsigned 32) (Fe.mk 2)
      (by decide) (by decide),
   choose_both_constant.2 dfgBoth 0 1 BinaryOp.add (Fe.mk 9) (Typ.unsigned 32) (by decide)⟩
